import Mathlib

/-!
Shallow embedding of letsencrypt_apache/dvsni.py (class ApacheDvsni).

The class solves DVSNI challenges: `perform` saves pending configuration
state, switches the server into HTTPS mode, creates one challenge
certificate per challenge, renders a guarded configuration fragment with
one virtual-host block per challenge, wires the fragment into the main
configuration, writes the fragment file, marks the derived addresses
SNI-ready and commits a named checkpoint.

Collaborators that live outside the sources at hand (the obj.Addr value
type, the parser module, the configurator and the common.Dvsni base
class) are modelled from the spec; each such definition carries a doc
comment starting with "Modelled from the spec:".  Mutations of
collaborator state are recorded as an explicit event trace so that frame
and ordering claims can be stated.
-/

namespace ApacheDvsni

/-- Network address of a virtual server listener: a pair of host and port
strings, mirroring the (host, port) tuple wrapped by obj.Addr. -/
structure Addr where
  host : String
  port : String
deriving DecidableEq, Repr

/-- Modelled from the spec: obj.Addr.get_addr returns the host part of the
address tuple (the obj module is not among the sources at hand). -/
def Addr.get_addr (a : Addr) : String := a.host

/-- Modelled from the spec: obj.Addr.get_sni_addr keeps the host and
replaces the port with the given challenge port (spec 4.1,
toChallengeAddress for a non-wildcard address). -/
def Addr.get_sni_addr (a : Addr) (p : Nat) : Addr :=
  { host := a.host, port := toString p }

/-- Modelled from the spec: string rendering of an address, used where
_get_config_text joins str(i) for the addresses with spaces. -/
def Addr.str (a : Addr) : String := a.host ++ ":" ++ a.port

/-- Annotated DVSNI challenge: target domain, token and account key
reference (spec section 3, Challenge). -/
structure Achall where
  domain : String
  token : String
  accountKey : String
deriving DecidableEq, Repr

/-- Response descriptor returned per challenge: the derived SNI name
(z-domain) plus the certificate and key file references (spec section 3,
Response Descriptor). -/
structure Response where
  z_domain : String
  cert_path : String
  key_path : String
deriving DecidableEq, Repr

/-- A virtual server as seen by this component: the list of addresses it
listens on (collaborator data, spec section 6). -/
structure Vhost where
  addrs : List Addr
deriving DecidableEq, Repr

/-- Everything `perform` reads but never writes: configurator settings,
the vhost-selection collaborator, the external z-domain derivation, the
platform line separator and the batch of challenges. -/
structure Env where
  /-- configurator.config.dvsni_port -/
  dvsni_port : Nat
  /-- configurator.config.work_dir -/
  work_dir : String
  /-- configurator.conf of the server-root setting -/
  server_root : String
  /-- configurator.mod_ssl_conf -/
  mod_ssl_conf : String
  /-- the default entry of configurator.parser.loc, the main config path -/
  parser_loc_default : String
  /-- Modelled from the spec: configurator.choose_vhost, the virtual-server
  registry; none when the domain has no matching virtual server, which is
  fatal for the batch (spec sections 4.3 and 7, NoTargetServer). -/
  choose_vhost : String → Option Vhost
  /-- Modelled from the spec: the standard derivation of the SNI name from
  the token of the challenge and the account key, delegated to the
  challenge-response library (achall.gen_response(...).z_domain). -/
  zDomainOf : String → String → String
  /-- os.linesep of the host platform -/
  linesep : String
  /-- the batch of annotated challenges held by the instance -/
  achalls : List Achall

/-- Mutable collaborator state touched by _mod_config: the directive
entries known to the parser, as (augeas path, name, value) triples, and
the files written, as an association of path to content. -/
structure ApacheState where
  parser_directives : List (String × String × String)
  files : List (String × String)
deriving DecidableEq, Repr

/-- One collaborator call that mutates state, in the order `perform`
issues them.  Queries (choose_vhost, find_dir) mutate nothing and are not
recorded. -/
inductive Event where
  /-- configurator.save, with optional title and the temporary flag -/
  | save (title : Option String) (temporary : Bool)
  /-- configurator.prepare_server_https at the given port -/
  | prepareServerHttps (port : String) (temp : Bool)
  /-- Modelled from the spec: _setup_challenge_cert of common.Dvsni writes
  the certificate and key files for one challenge. -/
  | setupChallengeCert (domain : String)
  /-- parser.add_dir adding a directive at the given path -/
  | addIncludeDir (path : String) (name : String) (value : String)
  /-- reverter.register_file_creation on the fragment path -/
  | registerFileCreation (temp : Bool) (path : String)
  /-- opening the path for writing and writing the full content -/
  | writeFile (path : String) (content : String)
  /-- configurator.make_addrs_sni_ready on the unioned address set -/
  | makeAddrsSniReady (addrs : List Addr)
deriving DecidableEq, Repr

/-- The only fatal condition arising inside the embedded code paths. -/
inductive PerformError where
  | noTargetServer (domain : String)
deriving DecidableEq, Repr

/-- Outcome of `perform`: the responses (or the error), the final
collaborator state and the trace of mutating collaborator calls made
before returning or aborting. -/
inductive PerformResult where
  | ok (responses : List Response) (st : ApacheState) (events : List Event)
  | err (e : PerformError) (st : ApacheState) (events : List Event)
deriving DecidableEq, Repr

/-- State component of a result. -/
def PerformResult.state : PerformResult → ApacheState
  | .ok _ st _ => st
  | .err _ st _ => st

/-- Event-trace component of a result. -/
def PerformResult.events : PerformResult → List Event
  | .ok _ _ ev => ev
  | .err _ _ ev => ev

/-- Response-list component of a result; empty on error. -/
def PerformResult.responses : PerformResult → List Response
  | .ok rs _ _ => rs
  | .err _ _ _ => []

/-- os.path.join for the two-component paths the source builds. -/
def pathJoin (a b : String) : String := a ++ "/" ++ b

/-- challenge_conf as set in the constructor: the fragment file lives at
le_dvsni_cert_challenge.conf under the server root. -/
def challenge_conf (env : Env) : String :=
  pathJoin env.server_root "le_dvsni_cert_challenge.conf"

/-- Modelled from the spec: certificate path chosen by the response
builder under the working directory (get_cert_path of common.Dvsni). -/
def get_cert_path (env : Env) (achall : Achall) : String :=
  pathJoin env.work_dir (achall.domain ++ ".crt")

/-- Modelled from the spec: key path chosen by the response builder under
the working directory (get_key_path of common.Dvsni). -/
def get_key_path (env : Env) (achall : Achall) : String :=
  pathJoin env.work_dir (achall.domain ++ ".key")

/-- Modelled from the spec: _setup_challenge_cert of common.Dvsni derives
the z-domain from the token and account key of the challenge and
generates the certificate and key files, returning the response
descriptor (spec section 4.2, buildResponse). -/
def setup_challenge_cert (env : Env) (achall : Achall) : Response :=
  { z_domain := env.zDomainOf achall.token achall.accountKey
    cert_path := get_cert_path env achall
    key_path := get_key_path env achall }

/-- Python set.add on a list kept duplicate-free: value-based membership
test, appending only when absent. -/
def setAdd (s : List Addr) (a : Addr) : List Addr :=
  if a ∈ s then s else s ++ [a]

/-- Python set.update: add every element of the second collection. -/
def setUpdate (s : List Addr) (t : List Addr) : List Addr :=
  t.foldl setAdd s

/-- Body of the loop in get_dvsni_addrs: a listener whose host is the
reserved marker maps to the default address (star, challenge port),
every other listener keeps its host and gets the challenge port. -/
def dvsniAddrOf (port : Nat) (addr : Addr) : Addr :=
  if addr.get_addr = "_default_" then { host := "*", port := toString port }
  else addr.get_sni_addr port

/-- get_dvsni_addrs: choose the vhost for the domain of the challenge and
accumulate the challenge address of every listener into a set; failure of
vhost selection is fatal. -/
def get_dvsni_addrs (env : Env) (achall : Achall) : Except PerformError (List Addr) :=
  match env.choose_vhost achall.domain with
  | none => .error (.noTargetServer achall.domain)
  | some vhost =>
    .ok (vhost.addrs.foldl (fun s addr => setAdd s (dvsniAddrOf env.dvsni_port addr)) [])

/-- Python str.replace of the newline character by the platform line
separator, on the character list of the string. -/
def replaceNlList (linesep : List Char) : List Char → List Char
  | [] => []
  | c :: cs =>
    if c = '\n' then linesep ++ replaceNlList linesep cs
    else c :: replaceNlList linesep cs

/-- String-level wrapper for the newline replacement in _get_config_text. -/
def replaceNl (linesep : String) (s : String) : String :=
  ⟨replaceNlList linesep.data s.data⟩

/-- VHOST_TEMPLATE of the source, with the five holes filled in by
_get_config_text: the space-joined address list, the z-domain as server
name, the shared TLS options include, the certificate and key paths and
the document root.  The template text itself uses the newline character;
_get_config_text replaces every newline by os.linesep at the end. -/
def get_config_text (env : Env) (achall : Achall) (ip_addrs : List Addr) : String :=
  let ips := String.intercalate " " (ip_addrs.map Addr.str)
  let document_root := pathJoin env.work_dir "dvsni_page/"
  replaceNl env.linesep
    ("<VirtualHost " ++ ips ++ ">\n    ServerName "
      ++ env.zDomainOf achall.token achall.accountKey
      ++ "\n    UseCanonicalName on\n    SSLStrictSNIVHostCheck on\n\n    LimitRequestBody 1048576\n\n    Include "
      ++ env.mod_ssl_conf
      ++ "\n    SSLCertificateFile " ++ get_cert_path env achall
      ++ "\n    SSLCertificateKeyFile " ++ get_key_path env achall
      ++ "\n\n    DocumentRoot " ++ document_root
      ++ "\n</VirtualHost>\n\n")

/-- Modelled from the spec: parser.get_aug_path wraps a file path into the
path language of the parser; the directive records keep it verbatim. -/
def get_aug_path (p : String) : String := "/files" ++ p

/-- Case-folding key of a character: upper-case ASCII letters fold onto
their lower-case counterparts. -/
def charKey (c : Char) : Nat :=
  if 65 ≤ c.toNat ∧ c.toNat ≤ 90 then c.toNat + 32 else c.toNat

/-- Modelled from the spec: parser.case_i builds a case-insensitive match
for a directive name; two names match when their case-folded keys agree. -/
def strKey (s : String) : List Nat := s.data.map charKey

/-- Number of directives matching find_dir with a case-insensitive name
Include and the fragment path as value. -/
def includeCount (env : Env) (st : ApacheState) : Nat :=
  (st.parser_directives.filter
    (fun d => strKey d.2.1 = strKey "Include" && d.2.2 = challenge_conf env)).length

/-- _conf_include_check: search the parser for an Include of the fragment
path and add the directive to the main config only when absent. -/
def conf_include_check (env : Env) (st : ApacheState) : ApacheState × List Event :=
  if includeCount env st = 0 then
    ({ st with parser_directives :=
        st.parser_directives
          ++ [(get_aug_path env.parser_loc_default, "Include", challenge_conf env)] },
      [.addIncludeDir (get_aug_path env.parser_loc_default) "Include" (challenge_conf env)])
  else (st, [])

/-- Write a file: the new content replaces any prior content in full. -/
def fsWrite (fs : List (String × String)) (p c : String) : List (String × String) :=
  (p, c) :: fs.filter (fun e => e.1 ≠ p)

/-- Look up the content of a file. -/
def fsLookup (fs : List (String × String)) (p : String) : Option String :=
  (fs.find? (fun e => e.1 = p)).map (fun e => e.2)

/-- The loop of _mod_config: per challenge, in input order, union the
challenge addresses into the set and append the block text; the loop
performs no mutation, so a fatal vhost-selection failure inside it leaves
no trace. -/
def modConfigLoop (env : Env) :
    List Achall → List Addr → String → Except PerformError (List Addr × String)
  | [], dvsni_addrs, config_text => .ok (dvsni_addrs, config_text)
  | achall :: rest, dvsni_addrs, config_text =>
    match get_dvsni_addrs env achall with
    | .error e => .error e
    | .ok achall_addrs =>
      modConfigLoop env rest (setUpdate dvsni_addrs achall_addrs)
        (config_text ++ get_config_text env achall achall_addrs)

/-- _mod_config: build the guarded fragment text over all challenges,
ensure the include is wired in, register the fragment file for rollback,
then write the fragment, and return the unioned address set. -/
def mod_config (env : Env) (st : ApacheState) :
    Except PerformError (List Addr × ApacheState × List Event) :=
  match modConfigLoop env env.achalls [] "<IfModule mod_ssl.c>\n" with
  | .error e => .error e
  | .ok (dvsni_addrs, text0) =>
    let config_text := text0 ++ "</IfModule>\n"
    let checked := conf_include_check env st
    let st2 := { checked.1 with files := fsWrite checked.1.files (challenge_conf env) config_text }
    .ok (dvsni_addrs, st2,
      checked.2
        ++ [.registerFileCreation true (challenge_conf env),
            .writeFile (challenge_conf env) config_text])

/-- perform: on an empty batch return immediately; otherwise save pending
state, prepare the server for HTTPS at the challenge port, create all
challenge certificates in input order, modify the configuration, make the
unioned addresses SNI-ready and save the SNI Challenge checkpoint. -/
def perform (env : Env) (st : ApacheState) : PerformResult :=
  if env.achalls.isEmpty then .ok [] st []
  else
    let ev0 := [Event.save none false,
                Event.prepareServerHttps (toString env.dvsni_port) true]
    let responses := env.achalls.map (setup_challenge_cert env)
    let certEvents := env.achalls.map (fun a => Event.setupChallengeCert a.domain)
    match mod_config env st with
    | .error e => .err e st (ev0 ++ certEvents)
    | .ok (dvsni_addrs, st2, mcEv) =>
      .ok responses st2
        (ev0 ++ certEvents ++ mcEv
          ++ [Event.makeAddrsSniReady dvsni_addrs,
              Event.save (some "SNI Challenge") true])

end ApacheDvsni

namespace ApacheDvsni

/-! Concrete fixtures used by witnesses and counterexamples. -/

/-- Empty collaborator state: no directives, no files. -/
def st0 : ApacheState := { parser_directives := [], files := [] }

/-- A first sample challenge. -/
def achallA : Achall := { domain := "a.example", token := "tokA", accountKey := "keyA" }

/-- A second sample challenge. -/
def achallB : Achall := { domain := "b.example", token := "tokB", accountKey := "keyB" }

/-- Virtual server for the first domain: one concrete listener and one
default listener. -/
def vhA : Vhost :=
  { addrs := [{ host := "10.0.0.1", port := "80" }, { host := "_default_", port := "80" }] }

/-- Virtual server for the second domain: a single listener. -/
def vhB : Vhost := { addrs := [{ host := "10.0.0.5", port := "443" }] }

/-- An environment on which perform succeeds for both sample challenges. -/
def envOk : Env :=
  { dvsni_port := 5001
    work_dir := "/var/lib/le"
    server_root := "/etc/apache2"
    mod_ssl_conf := "/etc/le/options-ssl.conf"
    parser_loc_default := "/etc/apache2/apache2.conf"
    choose_vhost := fun d =>
      if d = "a.example" then some vhA else if d = "b.example" then some vhB else none
    zDomainOf := fun t k => t ++ "." ++ k ++ ".acme.invalid"
    linesep := "\n"
    achalls := [achallA, achallB] }

/-- The same environment with an empty batch. -/
def envEmpty : Env := { envOk with achalls := [] }

/-- The same environment with a single challenge whose domain has no
matching virtual server. -/
def envNoVhost : Env := { envOk with choose_vhost := fun _ => none, achalls := [achallA] }

/-- The same environment on a platform whose line separator is CRLF. -/
def envWin : Env := { envOk with linesep := "\r\n" }

/-! Helper lemmas. -/

/-- Characterization of a successful perform on a non-empty batch. -/
theorem perform_ok_elim (env : Env) (st : ApacheState)
    (rs : List Response) (st2 : ApacheState) (ev : List Event)
    (hne : env.achalls ≠ []) (h : perform env st = .ok rs st2 ev) :
    ∃ dvsni_addrs st2x mcEv,
      mod_config env st = .ok (dvsni_addrs, st2x, mcEv)
      ∧ rs = env.achalls.map (setup_challenge_cert env)
      ∧ st2 = st2x
      ∧ ev = [Event.save none false,
              Event.prepareServerHttps (toString env.dvsni_port) true]
            ++ env.achalls.map (fun a => Event.setupChallengeCert a.domain)
            ++ mcEv
            ++ [Event.makeAddrsSniReady dvsni_addrs,
                Event.save (some "SNI Challenge") true] := by
  have hE : env.achalls.isEmpty = false := by
    cases hx : env.achalls with
    | nil => exact absurd hx hne
    | cons a as => rfl
  unfold perform at h
  rw [hE] at h
  simp only [Bool.false_eq_true, if_false] at h
  cases hm : mod_config env st with
  | error e =>
    rw [hm] at h
    simp at h
  | ok val =>
    obtain ⟨dvsni_addrs, st2x, mcEv⟩ := val
    rw [hm] at h
    simp only [PerformResult.ok.injEq] at h
    obtain ⟨h1, h2, h3⟩ := h
    exact ⟨dvsni_addrs, st2x, mcEv, rfl, h1.symm, h2.symm, h3.symm⟩

/-- A perform on an empty batch returns immediately. -/
theorem perform_nil (env : Env) (st : ApacheState)
    (h : env.achalls = []) : perform env st = .ok [] st [] := by
  unfold perform
  rw [h]
  rfl

/-- Failure of get_dvsni_addrs means the domain had no virtual server. -/
theorem get_dvsni_addrs_err (env : Env) (achall : Achall) (e : PerformError)
    (h : get_dvsni_addrs env achall = .error e) :
    e = .noTargetServer achall.domain ∧ env.choose_vhost achall.domain = none := by
  unfold get_dvsni_addrs at h
  cases hv : env.choose_vhost achall.domain with
  | none =>
    rw [hv] at h
    simp only [Except.error.injEq] at h
    exact ⟨h.symm, rfl⟩
  | some vhost =>
    rw [hv] at h
    simp at h

/-- Failure of the fragment loop names a challenge of the batch whose
domain has no virtual server. -/
theorem modConfigLoop_err (env : Env) :
    ∀ (l : List Achall) (s : List Addr) (t : String) (e : PerformError),
      modConfigLoop env l s t = .error e →
      ∃ achall, achall ∈ l ∧ e = .noTargetServer achall.domain
        ∧ env.choose_vhost achall.domain = none := by
  intro l
  induction l with
  | nil => intro s t e h; simp [modConfigLoop] at h
  | cons a rest ih =>
    intro s t e h
    unfold modConfigLoop at h
    cases hg : get_dvsni_addrs env a with
    | error e0 =>
      rw [hg] at h
      simp only [Except.error.injEq] at h
      subst h
      obtain ⟨he, hv⟩ := get_dvsni_addrs_err env a e0 hg
      exact ⟨a, List.mem_cons_self a rest, he, hv⟩
    | ok achall_addrs =>
      rw [hg] at h
      obtain ⟨achall, hmem, he, hv⟩ := ih _ _ _ h
      exact ⟨achall, List.mem_cons_of_mem a hmem, he, hv⟩

/-- Failure of mod_config comes from the loop, which mutates nothing. -/
theorem mod_config_err (env : Env) (st : ApacheState) (e : PerformError)
    (h : mod_config env st = .error e) :
    modConfigLoop env env.achalls [] "<IfModule mod_ssl.c>\n" = .error e := by
  unfold mod_config at h
  cases hl : modConfigLoop env env.achalls [] "<IfModule mod_ssl.c>\n" with
  | error e0 =>
    rw [hl] at h
    simp only [Except.error.injEq] at h
    rw [h]
  | ok val =>
    obtain ⟨dvsni_addrs, text0⟩ := val
    rw [hl] at h
    simp at h

/-- C6: on an empty batch, perform returns the empty response list, makes
no collaborator call and leaves the collaborator state unchanged. -/
theorem perform_empty_no_effect (env : Env) (st : ApacheState)
    (h : env.achalls = []) : perform env st = .ok [] st [] :=
  perform_nil env st h

/-- Witness for C6 at a concrete environment with an empty batch. -/
theorem perform_empty_no_effect_witness :
    envEmpty.achalls = [] ∧ perform envEmpty st0 = .ok [] st0 [] :=
  ⟨rfl, perform_empty_no_effect envEmpty st0 rfl⟩

/-- C1: a successful perform returns one response per challenge, in input
order, and the i-th response carries the z-domain derived from the token
and the account key of the i-th challenge. -/
theorem perform_responses_aligned (env : Env) (st : ApacheState)
    (rs : List Response) (st2 : ApacheState) (ev : List Event)
    (hne : env.achalls ≠ []) (h : perform env st = .ok rs st2 ev) :
    rs.length = env.achalls.length
    ∧ ∀ i (h1 : i < rs.length) (h2 : i < env.achalls.length),
        (rs.get ⟨i, h1⟩).z_domain
          = env.zDomainOf (env.achalls.get ⟨i, h2⟩).token
              (env.achalls.get ⟨i, h2⟩).accountKey := by
  obtain ⟨dvsni_addrs, st2x, mcEv, hm, hrs, hst, hev⟩ :=
    perform_ok_elim env st rs st2 ev hne h
  subst hrs
  constructor
  · exact List.length_map _ _
  · intro i h1 h2
    simp [setup_challenge_cert]

/-- Witness for C1: at the concrete environment the batch is non-empty,
perform succeeds, and the first response carries the z-domain derived
from the first challenge. -/
theorem perform_responses_aligned_witness :
    envOk.achalls ≠ []
    ∧ (perform envOk st0).responses.length = envOk.achalls.length :=
  ⟨by decide,
    (perform_responses_aligned envOk st0 (perform envOk st0).responses
      (perform envOk st0).state (perform envOk st0).events (by decide) rfl).1⟩

/-- C2 (counterexample): at a concrete batch whose single domain has no
virtual server, perform does fail with noTargetServer, but only after the
save, the HTTPS-mode switch and the certificate setup have mutated
collaborator state, refuting the claim that the batch aborts before any
mutation. -/
theorem perform_no_vhost_mutates_counterexample :
    perform envNoVhost st0
      = .err (.noTargetServer "a.example") st0
          [Event.save none false, Event.prepareServerHttps "5001" true,
           Event.setupChallengeCert "a.example"]
    ∧ Event.save none false ∈ (perform envNoVhost st0).events
    ∧ Event.prepareServerHttps "5001" true ∈ (perform envNoVhost st0).events
    ∧ Event.setupChallengeCert "a.example" ∈ (perform envNoVhost st0).events :=
  ⟨by decide, by decide, by decide, by decide⟩

/-- C2 (amended): when perform fails, the error is noTargetServer for a
challenge of the batch whose domain has no virtual server, the
collaborator state is unchanged — no include directive added, no fragment
file registered or written, no addresses made SNI-ready, no checkpoint —
but the initial save, the HTTPS-mode switch and the per-challenge
certificate setups have already been issued. -/
theorem perform_err_aborts (env : Env) (st : ApacheState)
    (e : PerformError) (st2 : ApacheState) (ev : List Event)
    (h : perform env st = .err e st2 ev) :
    st2 = st
    ∧ ev = [Event.save none false,
            Event.prepareServerHttps (toString env.dvsni_port) true]
          ++ env.achalls.map (fun a => Event.setupChallengeCert a.domain)
    ∧ ∃ achall, achall ∈ env.achalls ∧ e = .noTargetServer achall.domain
        ∧ env.choose_vhost achall.domain = none := by
  by_cases hnil : env.achalls = []
  · have hok := perform_nil env st hnil
    rw [hok] at h
    simp at h
  · have hE : env.achalls.isEmpty = false := by
      cases hx : env.achalls with
      | nil => exact absurd hx hnil
      | cons a as => rfl
    unfold perform at h
    rw [hE] at h
    simp only [Bool.false_eq_true, if_false] at h
    cases hm : mod_config env st with
    | error e0 =>
      rw [hm] at h
      simp only [PerformResult.err.injEq] at h
      obtain ⟨he, hst, hev⟩ := h
      subst he
      have hl := mod_config_err env st e0 hm
      obtain ⟨achall, hmem, hea, hv⟩ := modConfigLoop_err env _ _ _ _ hl
      exact ⟨hst.symm, hev.symm, achall, hmem, hea, hv⟩
    | ok val =>
      obtain ⟨dvsni_addrs, st2x, mcEv⟩ := val
      rw [hm] at h
      simp at h

/-- Witness for the amended C2 at the concrete no-vhost environment. -/
theorem perform_err_aborts_witness :
    st0 = st0
    ∧ [Event.save none false, Event.prepareServerHttps "5001" true,
       Event.setupChallengeCert "a.example"]
        = [Event.save none false,
           Event.prepareServerHttps (toString envNoVhost.dvsni_port) true]
          ++ envNoVhost.achalls.map (fun a => Event.setupChallengeCert a.domain)
    ∧ ∃ achall, achall ∈ envNoVhost.achalls
        ∧ PerformError.noTargetServer "a.example" = .noTargetServer achall.domain
        ∧ envNoVhost.choose_vhost achall.domain = none :=
  perform_err_aborts envNoVhost st0 (.noTargetServer "a.example") st0
    [Event.save none false, Event.prepareServerHttps "5001" true,
     Event.setupChallengeCert "a.example"] (by decide)

/-- C4: deriving the challenge address of a listener keeps the host and
takes the challenge port for a non-wildcard host, and yields the
canonical wildcard endpoint at the challenge port for the reserved
default marker, regardless of the original port. -/
theorem dvsni_addr_map (addr : Addr) (p : Nat) :
    (addr.get_addr ≠ "_default_" →
      (dvsniAddrOf p addr).host = addr.host ∧ (dvsniAddrOf p addr).port = toString p)
    ∧ (addr.get_addr = "_default_" → ∀ q : String,
        dvsniAddrOf p { host := addr.host, port := q }
          = { host := "*", port := toString p }) := by
  constructor
  · intro h
    unfold dvsniAddrOf
    rw [if_neg h]
    exact ⟨rfl, rfl⟩
  · intro h q
    have hq : Addr.get_addr { host := addr.host, port := q } = "_default_" := h
    unfold dvsniAddrOf
    rw [if_pos hq]

/-- Witness for C4 at a concrete non-wildcard and a concrete wildcard
listener. -/
theorem dvsni_addr_map_witness :
    ((dvsniAddrOf 5001 { host := "10.0.0.1", port := "80" }).host = "10.0.0.1"
      ∧ (dvsniAddrOf 5001 { host := "10.0.0.1", port := "80" }).port = toString 5001)
    ∧ dvsniAddrOf 5001 { host := "_default_", port := "80" }
        = { host := "*", port := toString 5001 } :=
  ⟨(dvsni_addr_map { host := "10.0.0.1", port := "80" } 5001).1 (by decide),
   (dvsni_addr_map { host := "_default_", port := "8080" } 5001).2 (by decide) "80"⟩

/-- Appending the Include directive for the fragment path raises the
match count of find_dir by exactly one. -/
theorem includeCount_append (env : Env) (st : ApacheState) (p : String) :
    includeCount env
        { st with parser_directives :=
            st.parser_directives ++ [(p, "Include", challenge_conf env)] }
      = includeCount env st + 1 := by
  unfold includeCount
  simp [List.filter_append, List.filter]

/-- When no include for the fragment path is present, the check adds the
directive to the main config. -/
theorem conf_include_check_of_zero (env : Env) (st : ApacheState)
    (h : includeCount env st = 0) :
    conf_include_check env st
      = ({ st with parser_directives :=
            st.parser_directives
              ++ [(get_aug_path env.parser_loc_default, "Include", challenge_conf env)] },
          [.addIncludeDir (get_aug_path env.parser_loc_default) "Include"
            (challenge_conf env)]) := by
  unfold conf_include_check
  rw [if_pos h]

/-- When an include for the fragment path is already present, the check
leaves the state unchanged and issues no call. -/
theorem conf_include_check_of_present (env : Env) (st : ApacheState)
    (h : ¬ includeCount env st = 0) :
    conf_include_check env st = (st, []) := by
  unfold conf_include_check
  rw [if_neg h]

/-- C5: the include-wiring check is idempotent — a second run changes
nothing, a run on a state without the include adds exactly one match, a
run on a state already containing the include leaves the state unchanged,
and two runs never leave more than one include for the fragment path
unless the state already had more. -/
theorem conf_include_check_idempotent (env : Env) (st : ApacheState) :
    (conf_include_check env (conf_include_check env st).1).1
        = (conf_include_check env st).1
    ∧ (includeCount env st = 0 →
        includeCount env (conf_include_check env st).1 = 1)
    ∧ (1 ≤ includeCount env st → (conf_include_check env st).1 = st)
    ∧ (includeCount env st ≤ 1 →
        includeCount env (conf_include_check env (conf_include_check env st).1).1 ≤ 1) := by
  by_cases h0 : includeCount env st = 0
  · have h1 : includeCount env (conf_include_check env st).1 = 1 := by
      rw [conf_include_check_of_zero env st h0]
      rw [includeCount_append env st _]
      rw [h0]
    have hne : ¬ includeCount env (conf_include_check env st).1 = 0 := by
      rw [h1]
      exact one_ne_zero
    have hch2 : conf_include_check env (conf_include_check env st).1
        = ((conf_include_check env st).1, []) :=
      conf_include_check_of_present env _ hne
    refine ⟨by rw [hch2], fun _ => h1, fun hge => absurd hge (by omega), fun _ => ?_⟩
    rw [hch2]
    rw [h1]
  · have hch : conf_include_check env st = (st, []) :=
      conf_include_check_of_present env st h0
    refine ⟨?_, fun hz => absurd hz h0, fun _ => by rw [hch], fun hle => ?_⟩
    · rw [hch]
      show (conf_include_check env st).1 = st
      rw [hch]
    · rw [hch]
      show includeCount env (conf_include_check env st).1 ≤ 1
      rw [hch]
      exact hle

/-- Witness for C5 at the empty concrete state: the first run adds the
single include, the second run is the identity, and soundness of the
already-present branch at the once-wired state. -/
theorem conf_include_check_idempotent_witness :
    includeCount envOk (conf_include_check envOk st0).1 = 1
    ∧ (conf_include_check envOk (conf_include_check envOk st0).1).1
        = (conf_include_check envOk st0).1
    ∧ (conf_include_check envOk (conf_include_check envOk st0).1).1
        = (conf_include_check envOk st0).1
    ∧ includeCount envOk
        (conf_include_check envOk (conf_include_check envOk st0).1).1 ≤ 1 :=
  ⟨(conf_include_check_idempotent envOk st0).2.1 (by decide),
   (conf_include_check_idempotent envOk st0).1,
   (conf_include_check_idempotent envOk (conf_include_check envOk st0).1).2.2.1 (by decide),
   (conf_include_check_idempotent envOk st0).2.2.2 (by decide)⟩

/-- Membership in a set after a Python-style add. -/
theorem setAdd_mem (s : List Addr) (a x : Addr) :
    x ∈ setAdd s a ↔ x ∈ s ∨ x = a := by
  unfold setAdd
  split
  · rename_i hmem
    constructor
    · exact fun h => Or.inl h
    · intro h
      cases h with
      | inl h => exact h
      | inr h => exact h ▸ hmem
  · simp

/-- A Python-style add keeps the set duplicate-free. -/
theorem setAdd_nodup (s : List Addr) (a : Addr) (h : s.Nodup) :
    (setAdd s a).Nodup := by
  unfold setAdd
  split
  · exact h
  · rename_i hmem
    rw [List.nodup_append]
    refine ⟨h, List.nodup_singleton a, ?_⟩
    intro x hx hx1
    rw [List.mem_singleton] at hx1
    exact hmem (hx1 ▸ hx)

/-- A Python-style update keeps the set duplicate-free. -/
theorem setUpdate_nodup (t : List Addr) :
    ∀ s : List Addr, s.Nodup → (setUpdate s t).Nodup := by
  induction t with
  | nil => intro s h; exact h
  | cons a t ih =>
    intro s h
    have : setUpdate s (a :: t) = setUpdate (setAdd s a) t := rfl
    rw [this]
    exact ih _ (setAdd_nodup s a h)

/-- The fragment loop keeps the accumulated address set duplicate-free. -/
theorem modConfigLoop_nodup (env : Env) :
    ∀ (l : List Achall) (s : List Addr) (t : String) (addrs : List Addr) (text : String),
      s.Nodup → modConfigLoop env l s t = .ok (addrs, text) → addrs.Nodup := by
  intro l
  induction l with
  | nil =>
    intro s t addrs text hs h
    unfold modConfigLoop at h
    simp only [Except.ok.injEq, Prod.mk.injEq] at h
    exact h.1 ▸ hs
  | cons a rest ih =>
    intro s t addrs text hs h
    unfold modConfigLoop at h
    cases hg : get_dvsni_addrs env a with
    | error e => rw [hg] at h; simp at h
    | ok achall_addrs =>
      rw [hg] at h
      exact ih _ _ _ _ (setUpdate_nodup achall_addrs s hs) h

/-- Characterization of a successful mod_config. -/
theorem mod_config_ok_elim (env : Env) (st : ApacheState)
    (addrs : List Addr) (st2 : ApacheState) (ev : List Event)
    (h : mod_config env st = .ok (addrs, st2, ev)) :
    ∃ text0,
      modConfigLoop env env.achalls [] "<IfModule mod_ssl.c>\n" = .ok (addrs, text0)
      ∧ st2 = { (conf_include_check env st).1 with
                files := fsWrite (conf_include_check env st).1.files
                  (challenge_conf env) (text0 ++ "</IfModule>\n") }
      ∧ ev = (conf_include_check env st).2
            ++ [.registerFileCreation true (challenge_conf env),
                .writeFile (challenge_conf env) (text0 ++ "</IfModule>\n")] := by
  unfold mod_config at h
  cases hl : modConfigLoop env env.achalls [] "<IfModule mod_ssl.c>\n" with
  | error e => rw [hl] at h; simp at h
  | ok val =>
    obtain ⟨dvsni_addrs, text0⟩ := val
    rw [hl] at h
    simp only [Except.ok.injEq, Prod.mk.injEq] at h
    obtain ⟨h1, h2, h3⟩ := h
    subst h1
    exact ⟨text0, rfl, h2.symm, h3.symm⟩

/-- The only call the include check can issue is the directive addition. -/
theorem conf_include_check_events (env : Env) (st : ApacheState) (e : Event)
    (h : e ∈ (conf_include_check env st).2) :
    e = .addIncludeDir (get_aug_path env.parser_loc_default) "Include"
          (challenge_conf env) := by
  by_cases h0 : includeCount env st = 0
  · rw [conf_include_check_of_zero env st h0] at h
    simpa using h
  · rw [conf_include_check_of_present env st h0] at h
    simp at h

/-- C7: the address set handed to the SNI-ready switch by a successful
perform contains each address exactly once: it is duplicate-free under
value-based address equality. -/
theorem sni_ready_addrs_unique (env : Env) (st : ApacheState)
    (rs : List Response) (st2 : ApacheState) (ev : List Event)
    (h : perform env st = .ok rs st2 ev) :
    ∀ addrs, Event.makeAddrsSniReady addrs ∈ ev →
      addrs.Nodup ∧ ∀ a ∈ addrs, addrs.count a = 1 := by
  by_cases hnil : env.achalls = []
  · have hok := perform_nil env st hnil
    have hx : PerformResult.ok rs st2 ev = .ok [] st [] := h.symm.trans hok
    simp only [PerformResult.ok.injEq] at hx
    intro addrs hmem
    rw [hx.2.2] at hmem
    simp at hmem
  · obtain ⟨dvsni_addrs, st2x, mcEv, hm, hrs, hst, hev⟩ :=
      perform_ok_elim env st rs st2 ev hnil h
    obtain ⟨text0, hloop, hst2, hmc⟩ := mod_config_ok_elim env st dvsni_addrs st2x mcEv hm
    intro addrs hmem
    have haddrs : addrs = dvsni_addrs := by
      subst hev
      subst hmc
      simp only [List.append_assoc, List.mem_append, List.mem_cons, List.mem_map,
        List.not_mem_nil, or_false] at hmem
      rcases hmem with h1 | h2 | h3 | h4
      · rcases h1 with h1 | h1 | h1
        all_goals simp at h1
      · obtain ⟨a, -, ha⟩ := h2
        simp at ha
      · have := conf_include_check_events env st _ h3
        simp at this
      · rcases h4 with h4 | h4 | h4 | h4
        all_goals simp at h4
        exact h4
    subst haddrs
    have hnd : addrs.Nodup :=
      modConfigLoop_nodup env env.achalls [] _ addrs text0 List.nodup_nil hloop
    exact ⟨hnd, fun a ha => List.count_eq_one_of_mem hnd ha⟩

/-- Witness for C7: the concrete unioned set for the two sample
challenges, whose servers overlap on the derived wildcard address, lists
each derived address once. -/
theorem sni_ready_addrs_unique_witness :
    ([{ host := "10.0.0.1", port := "5001" }, { host := "*", port := "5001" },
      { host := "10.0.0.5", port := "5001" }] : List Addr).Nodup
    ∧ ([{ host := "10.0.0.1", port := "5001" }, { host := "*", port := "5001" },
        { host := "10.0.0.5", port := "5001" }] : List Addr).count
        { host := "*", port := "5001" } = 1 :=
  have hall := sni_ready_addrs_unique envOk st0 (perform envOk st0).responses
    (perform envOk st0).state (perform envOk st0).events rfl
    [{ host := "10.0.0.1", port := "5001" }, { host := "*", port := "5001" },
     { host := "10.0.0.5", port := "5001" }] (by decide)
  ⟨hall.1, hall.2 _ (by decide)⟩

/-- Reading a file back right after a write yields the written content,
whatever was stored before. -/
theorem fsLookup_fsWrite (fs : List (String × String)) (p c : String) :
    fsLookup (fsWrite fs p c) p = some c := by
  simp [fsWrite, fsLookup, List.find?]

/-- C8: in every successful perform on a non-empty batch, the fragment
file is registered as newly created strictly before the write of the
fragment file, and afterwards the file holds exactly the written text,
the prior content being replaced in full. -/
theorem register_before_write (env : Env) (st : ApacheState)
    (rs : List Response) (st2 : ApacheState) (ev : List Event)
    (hne : env.achalls ≠ []) (h : perform env st = .ok rs st2 ev) :
    ∃ l1 l2 text,
      ev = l1 ++ Event.registerFileCreation true (challenge_conf env)
            :: Event.writeFile (challenge_conf env) text :: l2
      ∧ st2.files = fsWrite (conf_include_check env st).1.files (challenge_conf env) text
      ∧ fsLookup st2.files (challenge_conf env) = some text := by
  obtain ⟨dvsni_addrs, st2x, mcEv, hm, hrs, hst, hev⟩ :=
    perform_ok_elim env st rs st2 ev hne h
  obtain ⟨text0, hloop, hst2, hmc⟩ := mod_config_ok_elim env st dvsni_addrs st2x mcEv hm
  refine ⟨[Event.save none false,
           Event.prepareServerHttps (toString env.dvsni_port) true]
            ++ env.achalls.map (fun a => Event.setupChallengeCert a.domain)
            ++ (conf_include_check env st).2,
          [Event.makeAddrsSniReady dvsni_addrs,
           Event.save (some "SNI Challenge") true],
          text0 ++ "</IfModule>\n", ?_, ?_, ?_⟩
  · rw [hev, hmc]
    simp
  · rw [hst, hst2]
  · rw [hst, hst2]
    exact fsLookup_fsWrite _ _ _

/-- Witness for C8 at the concrete two-challenge environment. -/
theorem register_before_write_witness :
    ∃ l1 l2 text,
      (perform envOk st0).events
        = l1 ++ Event.registerFileCreation true (challenge_conf envOk)
              :: Event.writeFile (challenge_conf envOk) text :: l2
      ∧ (perform envOk st0).state.files
          = fsWrite (conf_include_check envOk st0).1.files (challenge_conf envOk) text
      ∧ fsLookup (perform envOk st0).state.files (challenge_conf envOk) = some text :=
  register_before_write envOk st0 (perform envOk st0).responses
    (perform envOk st0).state (perform envOk st0).events (by decide) rfl

/-- Concatenation of a list of strings, used to describe the fragment as
the guard, the blocks in order, and the closing guard. -/
def strConcat : List String → String
  | [] => ""
  | s :: rest => s ++ strConcat rest

/-- The per-challenge block texts of the fragment, in input order; fails
exactly when some challenge has no virtual server. -/
def blockTexts (env : Env) : List Achall → Except PerformError (List String)
  | [] => .ok []
  | a :: rest =>
    match get_dvsni_addrs env a with
    | .error e => .error e
    | .ok s =>
      match blockTexts env rest with
      | .error e => .error e
      | .ok bs => .ok (get_config_text env a s :: bs)

/-- Newline replacement distributes over concatenation. -/
theorem replaceNlList_append (ls : List Char) (u v : List Char) :
    replaceNlList ls (u ++ v) = replaceNlList ls u ++ replaceNlList ls v := by
  induction u with
  | nil => rfl
  | cons c cs ih =>
    simp only [List.cons_append, replaceNlList, List.append_eq]
    split
    · rw [ih, List.append_assoc]
    · rw [ih]
      rfl

/-- Newline replacement fixes a newline-free text. -/
theorem replaceNlList_of_no_nl (ls : List Char) (u : List Char)
    (h : ∀ c ∈ u, c ≠ '\n') : replaceNlList ls u = u := by
  induction u with
  | nil => rfl
  | cons c cs ih =>
    simp only [replaceNlList]
    rw [if_neg (h c (List.mem_cons_self c cs))]
    rw [ih (fun x hx => h x (List.mem_cons_of_mem c hx))]

/-- Newline replacement passes a newline-free leading part through. -/
theorem replaceNl_append_no_nl (ls : String) (x y : String)
    (h : ∀ c ∈ x.data, c ≠ '\n') :
    replaceNl ls (x ++ y) = x ++ replaceNl ls y := by
  unfold replaceNl
  rw [String.data_append, replaceNlList_append, replaceNlList_of_no_nl ls.data x.data h]
  cases x with
  | mk xd => rfl

/-- A challenge whose virtual server has no listening address still gets
its block, rendered with an empty address list after the VirtualHost
opening tag. -/
theorem get_config_text_nil (env : Env) (a : Achall) :
    ∃ rest, get_config_text env a [] = "<VirtualHost >" ++ rest := by
  simp only [get_config_text]
  rw [show String.intercalate " " (List.map Addr.str ([] : List Addr)) = "" from rfl]
  rw [String.append_empty]
  rw [show ("<VirtualHost " ++ ">\n    ServerName " : String)
        = "<VirtualHost >" ++ "\n    ServerName " from by decide]
  simp only [String.append_assoc]
  exact ⟨_, replaceNl_append_no_nl env.linesep "<VirtualHost >" _ (by decide)⟩

/-- The fragment loop produces the starting text followed by the
concatenation of the per-challenge blocks. -/
theorem modConfigLoop_blocks (env : Env) :
    ∀ (l : List Achall) (s : List Addr) (t : String) (addrs : List Addr) (text : String),
      modConfigLoop env l s t = .ok (addrs, text) →
      ∃ bs, blockTexts env l = .ok bs ∧ text = t ++ strConcat bs := by
  intro l
  induction l with
  | nil =>
    intro s t addrs text h
    unfold modConfigLoop at h
    simp only [Except.ok.injEq, Prod.mk.injEq] at h
    refine ⟨[], rfl, ?_⟩
    rw [← h.2]
    exact (String.append_empty t).symm
  | cons a rest ih =>
    intro s t addrs text h
    unfold modConfigLoop at h
    cases hg : get_dvsni_addrs env a with
    | error e => rw [hg] at h; simp at h
    | ok s0 =>
      rw [hg] at h
      obtain ⟨bs, hb, htext⟩ := ih _ _ _ _ h
      refine ⟨get_config_text env a s0 :: bs, ?_, ?_⟩
      · unfold blockTexts
        rw [hg, hb]
      · rw [htext]
        exact String.append_assoc _ _ _

/-- The block list is index-aligned with the challenge list. -/
theorem blockTexts_spec (env : Env) :
    ∀ (l : List Achall) (bs : List String), blockTexts env l = .ok bs →
      bs.length = l.length
      ∧ ∀ i (h1 : i < bs.length) (h2 : i < l.length),
          ∃ s, get_dvsni_addrs env (l.get ⟨i, h2⟩) = .ok s
            ∧ bs.get ⟨i, h1⟩ = get_config_text env (l.get ⟨i, h2⟩) s := by
  intro l
  induction l with
  | nil =>
    intro bs h
    unfold blockTexts at h
    simp only [Except.ok.injEq] at h
    subst h
    exact ⟨rfl, fun i h1 h2 => absurd h2 (Nat.not_lt_zero i)⟩
  | cons a rest ih =>
    intro bs h
    unfold blockTexts at h
    cases hg : get_dvsni_addrs env a with
    | error e => rw [hg] at h; simp at h
    | ok s0 =>
      rw [hg] at h
      cases hb : blockTexts env rest with
      | error e => rw [hb] at h; simp at h
      | ok bs0 =>
        rw [hb] at h
        simp only [Except.ok.injEq] at h
        subst h
        obtain ⟨hlen, hget⟩ := ih bs0 hb
        refine ⟨by simp [hlen], ?_⟩
        intro i h1 h2
        cases i with
        | zero => exact ⟨s0, hg, rfl⟩
        | succ n =>
          exact hget n (Nat.lt_of_succ_lt_succ h1) (Nat.lt_of_succ_lt_succ h2)

/-- C9: a successful perform writes a fragment consisting of the module
guard, then exactly one virtual-host block per challenge in input order,
then the closing guard; a challenge whose virtual server has no address
still contributes a block, opened with an empty address list. -/
theorem fragment_one_block_per_challenge (env : Env) (st : ApacheState)
    (rs : List Response) (st2 : ApacheState) (ev : List Event)
    (hne : env.achalls ≠ []) (h : perform env st = .ok rs st2 ev) :
    ∃ blocks, blockTexts env env.achalls = .ok blocks
      ∧ blocks.length = env.achalls.length
      ∧ (∀ i (h1 : i < blocks.length) (h2 : i < env.achalls.length),
          ∃ s, get_dvsni_addrs env (env.achalls.get ⟨i, h2⟩) = .ok s
            ∧ blocks.get ⟨i, h1⟩ = get_config_text env (env.achalls.get ⟨i, h2⟩) s)
      ∧ fsLookup st2.files (challenge_conf env)
          = some ("<IfModule mod_ssl.c>\n" ++ (strConcat blocks ++ "</IfModule>\n"))
      ∧ ∀ a : Achall, ∃ rest, get_config_text env a [] = "<VirtualHost >" ++ rest := by
  obtain ⟨dvsni_addrs, st2x, mcEv, hm, hrs, hst, hev⟩ :=
    perform_ok_elim env st rs st2 ev hne h
  obtain ⟨text0, hloop, hst2, hmc⟩ := mod_config_ok_elim env st dvsni_addrs st2x mcEv hm
  obtain ⟨bs, hb, htext⟩ := modConfigLoop_blocks env env.achalls [] _ _ _ hloop
  obtain ⟨hlen, hget⟩ := blockTexts_spec env env.achalls bs hb
  refine ⟨bs, hb, hlen, hget, ?_, fun a => get_config_text_nil env a⟩
  rw [hst, hst2]
  show fsLookup (fsWrite _ _ _) _ = _
  rw [fsLookup_fsWrite]
  rw [htext, String.append_assoc]

/-- Witness for C9 at the concrete two-challenge environment. -/
theorem fragment_one_block_per_challenge_witness :
    ∃ blocks, blockTexts envOk envOk.achalls = .ok blocks
      ∧ blocks.length = envOk.achalls.length
      ∧ (∀ i (h1 : i < blocks.length) (h2 : i < envOk.achalls.length),
          ∃ s, get_dvsni_addrs envOk (envOk.achalls.get ⟨i, h2⟩) = .ok s
            ∧ blocks.get ⟨i, h1⟩ = get_config_text envOk (envOk.achalls.get ⟨i, h2⟩) s)
      ∧ fsLookup (perform envOk st0).state.files (challenge_conf envOk)
          = some ("<IfModule mod_ssl.c>\n" ++ (strConcat blocks ++ "</IfModule>\n"))
      ∧ ∀ a : Achall, ∃ rest, get_config_text envOk a [] = "<VirtualHost >" ++ rest :=
  fragment_one_block_per_challenge envOk st0 (perform envOk st0).responses
    (perform envOk st0).state (perform envOk st0).events (by decide) rfl

/-- Membership in the address fold of get_dvsni_addrs. -/
theorem foldl_setAdd_mem (f : Addr → Addr) (l : List Addr) :
    ∀ (init : List Addr) (x : Addr),
      x ∈ l.foldl (fun s addr => setAdd s (f addr)) init
        ↔ x ∈ init ∨ ∃ a ∈ l, x = f a := by
  induction l with
  | nil => simp
  | cons b t ih =>
    intro init x
    simp only [List.foldl_cons]
    rw [ih (setAdd init (f b)) x, setAdd_mem]
    simp only [List.mem_cons]
    constructor
    · rintro ((h | h) | ⟨a, ha, hx⟩)
      · exact Or.inl h
      · exact Or.inr ⟨b, Or.inl rfl, h⟩
      · exact Or.inr ⟨a, Or.inr ha, hx⟩
    · rintro (h | ⟨a, (rfl | ha), hx⟩)
      · exact Or.inl (Or.inl h)
      · exact Or.inl (Or.inr hx)
      · exact Or.inr ⟨a, ha, hx⟩

/-- The address fold of get_dvsni_addrs keeps the set duplicate-free. -/
theorem foldl_setAdd_nodup (f : Addr → Addr) (l : List Addr) :
    ∀ init : List Addr, init.Nodup →
      (l.foldl (fun s addr => setAdd s (f addr)) init).Nodup := by
  induction l with
  | nil => intro init h; exact h
  | cons b t ih =>
    intro init h
    simp only [List.foldl_cons]
    exact ih _ (setAdd_nodup init (f b) h)

/-- Every derived challenge address carries the challenge port. -/
theorem dvsniAddrOf_port (p : Nat) (a : Addr) :
    (dvsniAddrOf p a).port = toString p := by
  unfold dvsniAddrOf Addr.get_sni_addr
  split
  · rfl
  · rfl

/-- The derived challenge address depends only on the host of the
listener. -/
theorem dvsniAddrOf_congr (p : Nat) (a1 a2 : Addr)
    (h : a1.get_addr = a2.get_addr) :
    dvsniAddrOf p a1 = dvsniAddrOf p a2 := by
  cases a1 with
  | mk h1 p1 =>
    cases a2 with
    | mk h2 p2 =>
      simp only [Addr.get_addr] at h
      subst h
      rfl

/-- C10: the per-challenge derived address set is duplicate-free, every
element carries the fixed challenge port, its elements are exactly the
derived addresses of the listeners of the chosen virtual server, two
listeners sharing a host derive the same address, and each derived
address occurs exactly once in the set. -/
theorem get_dvsni_addrs_dedup (env : Env) (achall : Achall) (vh : Vhost)
    (hv : env.choose_vhost achall.domain = some vh) :
    ∀ s, get_dvsni_addrs env achall = .ok s →
      s.Nodup
      ∧ (∀ x ∈ s, x.port = toString env.dvsni_port)
      ∧ (∀ x, x ∈ s ↔ ∃ a ∈ vh.addrs, x = dvsniAddrOf env.dvsni_port a)
      ∧ (∀ a1 a2, a1 ∈ vh.addrs → a2 ∈ vh.addrs → a1.get_addr = a2.get_addr →
          dvsniAddrOf env.dvsni_port a1 = dvsniAddrOf env.dvsni_port a2)
      ∧ (∀ a1, a1 ∈ vh.addrs → s.count (dvsniAddrOf env.dvsni_port a1) = 1) := by
  intro s h
  unfold get_dvsni_addrs at h
  rw [hv] at h
  simp only [Except.ok.injEq] at h
  subst h
  have hnd : (vh.addrs.foldl
      (fun s addr => setAdd s (dvsniAddrOf env.dvsni_port addr)) []).Nodup :=
    foldl_setAdd_nodup _ vh.addrs [] List.nodup_nil
  have hmem := foldl_setAdd_mem (dvsniAddrOf env.dvsni_port) vh.addrs []
  refine ⟨hnd, ?_, ?_, ?_, ?_⟩
  · intro x hx
    rcases (hmem x).mp hx with h0 | ⟨a, -, rfl⟩
    · simp at h0
    · exact dvsniAddrOf_port env.dvsni_port a
  · intro x
    rw [hmem x]
    simp
  · intro a1 a2 h1 h2 hh
    exact dvsniAddrOf_congr env.dvsni_port a1 a2 hh
  · intro a1 h1
    refine List.count_eq_one_of_mem hnd ?_
    rw [hmem (dvsniAddrOf env.dvsni_port a1)]
    exact Or.inr ⟨a1, h1, rfl⟩

/-- Witness for C10 at the first sample virtual server, whose default
listener collides with nothing and whose listeners map once each. -/
theorem get_dvsni_addrs_dedup_witness :
    ([{ host := "10.0.0.1", port := "5001" }, { host := "*", port := "5001" }] :
        List Addr).Nodup
    ∧ ([{ host := "10.0.0.1", port := "5001" }, { host := "*", port := "5001" }] :
        List Addr).count (dvsniAddrOf 5001 { host := "_default_", port := "80" }) = 1 :=
  have hall := get_dvsni_addrs_dedup envOk achallA vhA (by decide)
    [{ host := "10.0.0.1", port := "5001" }, { host := "*", port := "5001" }] rfl
  ⟨hall.1, hall.2.2.2.2 { host := "_default_", port := "80" } (by decide)⟩

set_option maxRecDepth 100000 in
/-- C3 (failing input): on a platform whose line separator is CRLF, the
fragment actually written opens with the module-guard line terminated by
a bare newline — only the virtual-host block lines are normalized to the
platform separator (28 carriage returns against 30 newlines), so not
every written line ends with the native terminator. -/
theorem fragment_guard_line_not_native :
    envWin.linesep = "\r\n"
    ∧ fsLookup (perform envWin st0).state.files (challenge_conf envWin) ≠ none
    ∧ ((fsLookup (perform envWin st0).state.files (challenge_conf envWin)).getD
        "").data.take 21 = "<IfModule mod_ssl.c>\n".data
    ∧ ((fsLookup (perform envWin st0).state.files (challenge_conf envWin)).getD
        "").data.take 22 ≠ "<IfModule mod_ssl.c>\r\n".data.take 22
    ∧ ((fsLookup (perform envWin st0).state.files (challenge_conf envWin)).getD
        "").data.count '\x0d' = 28
    ∧ ((fsLookup (perform envWin st0).state.files (challenge_conf envWin)).getD
        "").data.count '\n' = 30 :=
  ⟨rfl, by decide, by decide, by decide, by decide, by decide⟩

end ApacheDvsni
